import Mathlib

/-
  Verification of the StoryCraft prompt analyzer (storycraft.py) and the
  story-content cleaner (webapp.py).  Strings are modelled as `List Char`
  internally; the public entry points take and return `String`, mirroring
  the Python signatures.  Keyword matching in the source is plain substring
  containment on the lower-cased prompt; the regular-expression patterns of
  the analyzer all have the fixed shape
      literal  (alt1|alt2|...)?  (.+?)  terminator
  and are modelled by a dedicated matcher with the same leftmost-position,
  alternative-order, lazy-capture backtracking discipline as the Python
  `re` module.
-/

namespace StoryCraft

/-- Model of Python `str.lower` on a single character (ASCII range, which is
all the analyzer tables use). -/
def lowerCh (c : Char) : Char :=
  if 'A' ≤ c && c ≤ 'Z' then Char.ofNat (c.toNat + 32) else c

/-- Lower-casing of a whole string, as in `prompt.lower()`. -/
def lowerL (t : List Char) : List Char := t.map lowerCh

/-- Model of Python whitespace (`str.isspace` / regex class `\s`, ASCII range). -/
def isSpaceCh (c : Char) : Bool :=
  c == ' ' || c == '\t' || c == '\n' || c == '\r' || c == '\x0B' || c == '\x0C'

/-- Drop leading whitespace characters. -/
def dropSpaces : List Char → List Char
  | [] => []
  | c :: r => if isSpaceCh c then dropSpaces r else c :: r

/-- Model of Python `str.strip()`: remove leading and trailing whitespace. -/
def stripWS (t : List Char) : List Char :=
  (dropSpaces (dropSpaces t).reverse).reverse

/-- Case-sensitive literal prefix test. -/
def startsWithL : List Char → List Char → Bool
  | [], _ => true
  | _ :: _, [] => false
  | a :: as, b :: bs => a == b && startsWithL as bs

/-- Model of the Python substring test `needle in hay`. -/
def containsSub (needle : List Char) : List Char → Bool
  | [] => needle.isEmpty
  | c :: t => startsWithL needle (c :: t) || containsSub needle t

/-- Python dataclass `StoryConfig` (storycraft.py lines 33-43), with its
field defaults. -/
structure StoryConfig where
  genre : String := "general"
  style : String := "narrative"
  length : String := "medium"
  tone : String := "neutral"
  protagonist : String := ""
  setting : String := ""
  theme : String := ""
  original_prompt : String := ""
deriving DecidableEq

/-- The `genre_keywords` table of `PromptAnalyzer.__init__` (storycraft.py
lines 50-61), in its declared order. -/
def genre_keywords : List (String × List String) :=
  [("fantasy", ["magic", "wizard", "dragon", "fairy", "enchanted", "spell", "mythical", "magical", "fantasy"]),
   ("sci-fi", ["space", "alien", "robot", "future", "technology", "spaceship", "laser", "cyborg", "sci-fi", "science fiction"]),
   ("mystery", ["detective", "murder", "clue", "investigation", "suspect", "crime", "mystery", "solve"]),
   ("horror", ["scary", "ghost", "monster", "haunted", "nightmare", "terror", "horror", "frightening"]),
   ("romance", ["love", "romance", "dating", "relationship", "wedding", "romantic", "heart", "couple"]),
   ("adventure", ["journey", "quest", "explore", "adventure", "treasure", "expedition", "travel"]),
   ("thriller", ["chase", "escape", "danger", "suspense", "thriller", "action", "pursuit"]),
   ("historical", ["medieval", "ancient", "historical", "century", "war", "kingdom", "empire"]),
   ("comedy", ["funny", "humor", "laugh", "joke", "comedy", "hilarious", "amusing"]),
   ("contemporary", ["modern", "today", "current", "realistic", "everyday"])]

/-- The `length_keywords` table (storycraft.py lines 63-68), declared order. -/
def length_keywords : List (String × List String) :=
  [("short", ["short", "brief", "quick", "flash", "micro"]),
   ("medium", ["medium", "regular", "standard"]),
   ("long", ["long", "detailed", "extended", "comprehensive"]),
   ("epic", ["epic", "saga", "massive", "huge", "enormous"])]

/-- The `tone_keywords` table (storycraft.py lines 70-76), declared order. -/
def tone_keywords : List (String × List String) :=
  [("dark", ["dark", "grim", "serious", "somber", "tragic"]),
   ("light", ["light", "cheerful", "happy", "optimistic", "bright"]),
   ("humorous", ["funny", "humorous", "comedic", "amusing", "witty"]),
   ("dramatic", ["dramatic", "intense", "emotional", "powerful"]),
   ("mysterious", ["mysterious", "enigmatic", "cryptic", "puzzling"])]

/-- `sum(1 for keyword in keywords if keyword in prompt_lower)`
(storycraft.py line 101). -/
def kwScore (hay : List Char) (kws : List String) : Nat :=
  kws.countP (fun k => containsSub k.data hay)

/-- The `genre_scores` dict (storycraft.py lines 99-103): the genres of the
table, in declared order, restricted to those with a positive score. -/
def genre_scores (hay : List Char) : List (String × Nat) :=
  genre_keywords.filterMap (fun p =>
    let s := kwScore hay p.2
    if 0 < s then some (p.1, s) else none)

/-- Model of `max(genre_scores, key=genre_scores.get)` starting from a first
element: later entries replace the current best only when strictly greater,
so the first entry attaining the maximum wins. -/
def pyMaxFold (h : String × Nat) (t : List (String × Nat)) : String × Nat :=
  t.foldl (fun best q => if best.2 < q.2 then q else best) h

/-- Genre extraction (storycraft.py lines 99-106): the arg-max of
`genre_scores`, or the default `"general"` when no genre scored. -/
def extractGenre (hay : List Char) : String :=
  match genre_scores hay with
  | [] => "general"
  | h :: t => (pyMaxFold h t).1

/-- The length/tone extraction loop shape (storycraft.py lines 109-118):
first table entry, in declared order, with any keyword contained in the
lower-cased prompt; otherwise the dataclass default. -/
def firstKeywordMatch (table : List (String × List String)) (dflt : String)
    (hay : List Char) : String :=
  match table.find? (fun p => p.2.any (fun k => containsSub k.data hay)) with
  | some p => p.1
  | none => dflt

/-- The score of every genre of the table, in declared order (used to state
claims about the tie-break of the genre arg-max). -/
def tableScores (hay : List Char) : List (String × Nat) :=
  genre_keywords.map (fun p => (p.1, kwScore hay p.2))

/-- What may follow the lazy capture group in the analyzer patterns: either a
literal (the ` who` of the first character pattern) or the character class
`[\.,\s]` of all the other patterns. -/
inductive Terminator where
  | lit : String → Terminator
  | cls : Terminator

/-- Case-insensitive literal match at the head of the text, returning the
rest of the text on success (the `re.IGNORECASE` literal matching). -/
def matchLitCI : List Char → List Char → Option (List Char)
  | [], t => some t
  | _ :: _, [] => none
  | p :: ps, c :: cs => if lowerCh p == lowerCh c then matchLitCI ps cs else none

/-- Does the terminator match at the head of the text?  The class variant is
one character from `[\.,\s]`. -/
def termHolds : Terminator → List Char → Bool
  | .lit l, t => (matchLitCI l.data t).isSome
  | .cls, [] => false
  | .cls, c :: _ => c == '.' || c == ',' || isSpaceCh c

/-- The lazy group `(.+?)` followed by the terminator: capture the shortest
non-empty run of non-newline characters after which the terminator matches
(`.` does not match a newline, the patterns are compiled without DOTALL). -/
def lazyCapture (term : Terminator) (acc : List Char) : List Char → Option (List Char)
  | [] => none
  | c :: rest =>
    if c == '\n' then none
    else if termHolds term rest then some ((c :: acc).reverse)
    else lazyCapture term (c :: acc) rest

/-- An analyzer pattern: a literal, an optional group of literal
alternatives, the lazy capture, and the terminator.  An optional group
`(?:x |y )?` is listed as `["x ", "y ", ""]`: the alternatives in declared
order, the empty string last, exactly the backtracking order of `re`. -/
structure RePat where
  lit : String
  alts : List String
  term : Terminator

/-- Try the alternatives of the optional group in order; for each matching
alternative attempt the lazy capture plus terminator, backtracking to the
next alternative on failure. -/
def tryAlts (term : Terminator) : List String → List Char → Option (List Char)
  | [], _ => none
  | a :: as, t =>
    match matchLitCI a.data t with
    | some t2 =>
      match lazyCapture term [] t2 with
      | some cap => some cap
      | none => tryAlts term as t
    | none => tryAlts term as t

/-- Attempt the whole pattern at the current position. -/
def matchPatAt (p : RePat) (t : List Char) : Option (List Char) :=
  match matchLitCI p.lit.data t with
  | none => none
  | some t1 => tryAlts p.term p.alts t1

/-- Model of `re.search`: try the pattern at every position from the left,
returning the capture of the leftmost position where it matches. -/
def searchPat (p : RePat) : List Char → Option (List Char)
  | [] => matchPatAt p []
  | c :: rest =>
    match matchPatAt p (c :: rest) with
    | some cap => some cap
    | none => searchPat p rest

/-- The `character_patterns` list (storycraft.py lines 78-83):
`about (?:a |an )?(.+?) who`,
`protagonist (?:is |named |called )?(.+?)[\.,\s]`,
`main character (?:is |named |called )?(.+?)[\.,\s]`,
`story of (?:a |an )?(.+?)[\.,\s]`. -/
def character_patterns : List RePat :=
  [⟨"about ", ["a ", "an ", ""], .lit " who"⟩,
   ⟨"protagonist ", ["is ", "named ", "called ", ""], .cls⟩,
   ⟨"main character ", ["is ", "named ", "called ", ""], .cls⟩,
   ⟨"story of ", ["a ", "an ", ""], .cls⟩]

/-- The `setting_patterns` list (storycraft.py lines 85-90):
`set in (.+?)[\.,\s]`, `takes place in (.+?)[\.,\s]`,
`located in (.+?)[\.,\s]`, `world of (.+?)[\.,\s]`. -/
def setting_patterns : List RePat :=
  [⟨"set in ", [""], .cls⟩,
   ⟨"takes place in ", [""], .cls⟩,
   ⟨"located in ", [""], .cls⟩,
   ⟨"world of ", [""], .cls⟩]

/-- The pattern loops of `analyze_prompt` (storycraft.py lines 121-132):
first pattern of the list that matches anywhere in the original-case prompt
wins. -/
def firstCapture : List RePat → List Char → Option (List Char)
  | [], _ => none
  | p :: ps, t =>
    match searchPat p t with
    | some cap => some cap
    | none => firstCapture ps t

/-- `PromptAnalyzer.analyze_prompt` (storycraft.py lines 92-134). -/
def analyze_prompt (prompt : String) : StoryConfig :=
  let hay := lowerL prompt.data
  let genre := extractGenre hay
  let length := firstKeywordMatch length_keywords "medium" hay
  let tone := firstKeywordMatch tone_keywords "neutral" hay
  let protagonist :=
    match firstCapture character_patterns prompt.data with
    | some cap => String.mk (stripWS cap)
    | none => ""
  let setting :=
    match firstCapture setting_patterns prompt.data with
    | some cap => String.mk (stripWS cap)
    | none => ""
  { genre := genre, style := "narrative", length := length, tone := tone,
    protagonist := protagonist, setting := setting, theme := "",
    original_prompt := prompt }

/-- Case-sensitive literal match at the head of the text, returning the rest
on success (the planning regexes of webapp.py are compiled without
IGNORECASE). -/
def matchLitCS : List Char → List Char → Option (List Char)
  | [], t => some t
  | _ :: _, [] => none
  | p :: ps, c :: cs => if p == c then matchLitCS ps cs else none

/-- One planning-removal pattern of webapp.py (lines 18-40).  Every pattern
has the shape `^w1\s+w2\s+...\s+wn.*?(?=\n\n|\n[A-Z])`, some with one more
`\s+` between the last word and the lazy body; `words` lists the literal
words and `trailingWS` records that extra `\s+`. -/
structure PlanPat where
  words : List String
  trailingWS : Bool

/-- Consume one-or-more whitespace characters (`\s+`).  Between two literal
words the greedy munch is deterministic, every word starting with a
non-whitespace character. -/
def dropSpaces1 (t : List Char) : Option (List Char) :=
  match t with
  | [] => none
  | c :: rest => if isSpaceCh c then some (dropSpaces rest) else none

/-- Match the literal words of a planning pattern, separated by `\s+`,
returning the rest of the text. -/
def matchWords : List String → List Char → Option (List Char)
  | [], t => some t
  | [w], t => matchLitCS w.data t
  | w :: ws, t =>
    match matchLitCS w.data t with
    | none => none
    | some t1 =>
      match dropSpaces1 t1 with
      | none => none
      | some t2 => matchWords ws t2

/-- The lookahead `(?=\n\n|\n[A-Z])` at the head of the text. -/
def lookaheadAt : List Char → Bool
  | '\n' :: '\n' :: _ => true
  | '\n' :: c :: _ => 'A' ≤ c && c ≤ 'Z'
  | _ => false

/-- Length of the shortest (lazy `.*?`, DOTALL) body after which the
lookahead holds. -/
def scanLook (t : List Char) : Option Nat :=
  if lookaheadAt t then some 0
  else
    match t with
    | [] => none
    | _ :: rest => (scanLook rest).map (· + 1)

/-- Number of leading whitespace characters. -/
def countLeadingSpaces : List Char → Nat
  | [] => 0
  | c :: r => if isSpaceCh c then countLeadingSpaces r + 1 else 0

/-- The trailing `\s+.*?(?=...)` of planning patterns such as `Maybe\s+.*?`:
the greedy `\s+` tries the longest whitespace run first and backtracks one
character at a time, the lazy body then stops at the earliest lookahead. -/
def tryTrailing (r1 : List Char) : Nat → Option Nat
  | 0 => none
  | j + 1 =>
    match scanLook (r1.drop (j + 1)) with
    | some e => some (j + 1 + e)
    | none => tryTrailing r1 j

/-- Attempt a planning pattern at the current position (which the caller
guarantees to be a line start), returning the matched length. -/
def matchPlanAt (p : PlanPat) (t : List Char) : Option Nat :=
  match matchWords p.words t with
  | none => none
  | some r1 =>
    let consumed := t.length - r1.length
    if p.trailingWS then
      match tryTrailing r1 (countLeadingSpaces r1) with
      | some n => some (consumed + n)
      | none => none
    else
      match scanLook r1 with
      | some e => some (consumed + e)
      | none => none

/-- One pass of `re.sub(pattern, "", text, flags=re.DOTALL | re.MULTILINE)`:
scan left to right, try the pattern at every line start (`^` under
MULTILINE), delete each non-overlapping match.  The fuel starts at the text
length; every step consumes at least one character. -/
def subPatAux (p : PlanPat) : Nat → Bool → List Char → List Char
  | 0, _, t => t
  | _ + 1, _, [] => []
  | fuel + 1, atStart, c :: rest =>
    if atStart then
      match matchPlanAt p (c :: rest) with
      | some n =>
        subPatAux p fuel (decide ((c :: rest).getD (n - 1) ' ' = '\n')) ((c :: rest).drop n)
      | none => c :: subPatAux p fuel (c == '\n') rest
    else c :: subPatAux p fuel (c == '\n') rest

/-- `re.sub` of one planning pattern over the whole text. -/
def applySub (p : PlanPat) (t : List Char) : List Char :=
  subPatAux p t.length true t

/-- The `planning_patterns` list of `clean_story_content` (webapp.py lines
18-40), in declared order. -/
def planning_patterns : List PlanPat :=
  [⟨["Check", "for", "cultural"], false⟩,
   ⟨["Ensure", "the", "story"], false⟩,
   ⟨["Avoid", "any"], true⟩,
   ⟨["Keep", "paragraphs"], false⟩,
   ⟨["Let", "me", "draft"], false⟩,
   ⟨["Maybe"], true⟩,
   ⟨["Wait,"], true⟩,
   ⟨["Since"], true⟩,
   ⟨["Stick", "to", "the", "request"], false⟩,
   ⟨["Okay,", "the", "user", "wants"], false⟩,
   ⟨["First,", "I", "need", "to"], false⟩,
   ⟨["Let", "me", "start", "by"], false⟩,
   ⟨["I", "need", "to", "build"], false⟩,
   ⟨["The", "main", "character", "should", "be"], false⟩,
   ⟨["Themes:"], false⟩,
   ⟨["Plot", "structure:"], false⟩,
   ⟨["Vivid", "descriptions:"], false⟩,
   ⟨["Dialogue", "examples:"], false⟩,
   ⟨["Ending:"], false⟩,
   ⟨["Need", "to", "ensure"], false⟩,
   ⟨["Make", "sure", "the", "story"], false⟩]

/-- The regex-deletion loop of `clean_story_content` (webapp.py lines
43-45): the substitutions applied in sequence. -/
def removePlanningRegex (t : List Char) : List Char :=
  planning_patterns.foldl (fun acc p => applySub p acc) t

/-- Python `cleaned_text.split('\n')` (webapp.py line 48). -/
def splitNl : List Char → List (List Char)
  | [] => [[]]
  | c :: rest =>
    match splitNl rest with
    | [] => [[c]]
    | l :: ls => if c == '\n' then [] :: l :: ls else (c :: l) :: ls

/-- The keyword list of the line-dropping loop (webapp.py lines 53-58). -/
def planning_line_keywords : List String :=
  ["check for", "ensure", "avoid", "keep", "let me", "maybe", "wait", "since",
   "stick to", "okay", "first", "i need", "the main", "themes:", "plot",
   "vivid", "dialogue", "ending:", "need to", "make sure", "step by step",
   "making sure", "draft it"]

/-- One line passes the loop test (webapp.py lines 51-58) when its
lower-cased, stripped form is non-empty and contains none of the planning
keywords. -/
def isStoryLine (line : List Char) : Bool :=
  let ll := stripWS (lowerL line)
  !ll.isEmpty && !(planning_line_keywords.any (fun k => containsSub k.data ll))

/-- `story_start_idx` (webapp.py lines 49-60): index of the first line
passing the test, left at 0 when no line does. -/
def storyStartIdx (lines : List (List Char)) : Nat :=
  match lines.findIdx? isStoryLine with
  | some i => i
  | none => 0

/-- The whole planning-removal pipeline of `clean_story_content` (webapp.py
lines 43-64): regex deletions, then dropping the leading planning lines,
joining with newlines and stripping. -/
def cleanPipeline (t : List Char) : List Char :=
  let noPlan := removePlanningRegex t
  let lines := splitNl noPlan
  stripWS (List.intercalate ['\n'] (lines.drop (storyStartIdx lines)))

/-- `clean_story_content` (webapp.py lines 11-70): the cleaned text, unless
it came out shorter than 100 characters, in which case the stripped
original. -/
def clean_story_content (story_text : String) : String :=
  let cleaned := cleanPipeline story_text.data
  if cleaned.length < 100 then String.mk (stripWS story_text.data)
  else String.mk cleaned

/-- The largest score in a score list (0 for the empty list); used to state
and prove facts about the arg-max of `genre_scores`. -/
def maxScore (l : List (String × Nat)) : Nat :=
  l.foldr (fun q m => max q.2 m) 0

/-- Unfolding of the fold behind the Python `max`. -/
theorem pyMaxFold_cons (h p : String × Nat) (t : List (String × Nat)) :
    pyMaxFold h (p :: t) = pyMaxFold (if h.2 < p.2 then p else h) t := rfl

/-- The element selected by the Python `max` is one of the candidates. -/
theorem pyMaxFold_mem (t : List (String × Nat)) :
    ∀ h, pyMaxFold h t = h ∨ pyMaxFold h t ∈ t := by
  induction t with
  | nil => intro h; left; rfl
  | cons p t ih =>
    intro h
    rw [pyMaxFold_cons]
    rcases ih (if h.2 < p.2 then p else h) with he | hm
    · rw [he]
      by_cases hc : h.2 < p.2
      · right
        rw [if_pos hc]
        exact List.mem_cons_self _ _
      · left
        exact if_neg hc
    · right
      exact List.mem_cons_of_mem _ hm

/-- Every score in the list is at most `maxScore`. -/
theorem le_maxScore_of_mem (l : List (String × Nat)) {q : String × Nat}
    (hq : q ∈ l) : q.2 ≤ maxScore l := by
  induction l with
  | nil => cases hq
  | cons p l ih =>
    rcases List.mem_cons.mp hq with he | hm
    · rw [he]
      exact le_max_left _ _
    · exact le_trans (ih hm) (le_max_right _ _)

/-- `maxScore` is bounded by any common bound of the scores. -/
theorem maxScore_le_of_forall (l : List (String × Nat)) {m : Nat}
    (hb : ∀ q ∈ l, q.2 ≤ m) : maxScore l ≤ m := by
  induction l with
  | nil => exact Nat.zero_le m
  | cons p l ih =>
    exact max_le (hb p (List.mem_cons_self _ _))
      (ih (fun q hq => hb q (List.mem_cons_of_mem _ hq)))

/-- Unfolding of `find?` on a cons cell for the score-equality tests used
below, with a propositional `if`. -/
theorem find?_score_cons (q : String × Nat) (l : List (String × Nat)) (m : Nat) :
    (q :: l).find? (fun r => r.2 == m)
      = if q.2 = m then some q else l.find? (fun r => r.2 == m) := by
  rw [List.find?_cons]
  by_cases h : q.2 = m
  · simp [h]
  · rw [if_neg h, show (q.2 == m) = false from by simp [h]]

/-- The Python `max` over a non-empty score list returns exactly the first
element attaining the maximal score. -/
theorem find?_maxScore (t : List (String × Nat)) :
    ∀ h : String × Nat,
      (h :: t).find? (fun q => q.2 == maxScore (h :: t)) = some (pyMaxFold h t) := by
  induction t with
  | nil =>
    intro h
    rw [find?_score_cons, if_pos (show h.2 = maxScore [h] from (Nat.max_zero h.2).symm)]
    rfl
  | cons p t ih =>
    intro h
    rw [pyMaxFold_cons]
    have hM : maxScore (h :: p :: t) = max h.2 (max p.2 (maxScore t)) := rfl
    by_cases hc : h.2 < p.2
    · rw [if_pos hc]
      have hMp : maxScore (h :: p :: t) = maxScore (p :: t) := by
        rw [hM]
        exact max_eq_right (le_trans (le_of_lt hc) (le_max_left _ _))
      have hple : p.2 ≤ maxScore (p :: t) := le_max_left _ _
      rw [find?_score_cons, if_neg (by rw [hMp]; omega), hMp]
      exact ih p
    · rw [if_neg hc]
      have hple : p.2 ≤ h.2 := le_of_not_lt hc
      by_cases hEq : h.2 = maxScore (h :: p :: t)
      · rw [find?_score_cons, if_pos hEq]
        have hlet : max p.2 (maxScore t) ≤ h.2 := by
          have hxr : max p.2 (maxScore t) ≤ max h.2 (max p.2 (maxScore t)) :=
            le_max_right _ _
          rw [hM] at hEq
          omega
        have hMt : maxScore (h :: t) = h.2 := by
          show max h.2 (maxScore t) = h.2
          have hmt : maxScore t ≤ max p.2 (maxScore t) := le_max_right _ _
          exact max_eq_left (by omega)
        have hih := ih h
        rw [hMt, find?_score_cons, if_pos rfl] at hih
        exact hih
      · have hhle : h.2 ≤ maxScore (h :: p :: t) := by
          rw [hM]
          exact le_max_left _ _
        have hMY : maxScore (h :: p :: t) = max p.2 (maxScore t) := by
          rcases max_choice h.2 (max p.2 (maxScore t)) with hx | hx
          · rw [hM] at hEq ⊢
            omega
          · rw [hM, hx]
        have hplt : p.2 ≠ maxScore (h :: p :: t) := by omega
        rw [find?_score_cons, if_neg hEq, find?_score_cons, if_neg hplt]
        have hMt : maxScore (h :: p :: t) = maxScore t := by
          rcases max_choice p.2 (maxScore t) with hx | hx
          · rw [hMY] at hplt ⊢
            omega
          · rw [hMY, hx]
        have hih := ih h
        have hMht : maxScore (h :: t) = maxScore (h :: p :: t) := by
          show max h.2 (maxScore t) = maxScore (h :: p :: t)
          have hM2 := hMt
          rw [hMt]
          exact max_eq_right (by omega)
        rw [hMht, find?_score_cons, if_neg hEq] at hih
        exact hih

/-- `genre_scores` is the positive-score restriction of the full table of
scores, in order. -/
theorem genre_scores_eq_filter (hay : List Char) :
    genre_scores hay = (tableScores hay).filter (fun q => decide (0 < q.2)) := by
  show genre_keywords.filterMap _ = (genre_keywords.map _).filter _
  induction genre_keywords with
  | nil => rfl
  | cons p l ih =>
    rw [List.filterMap_cons, List.map_cons, List.filter_cons]
    by_cases hs : 0 < kwScore hay p.2
    · simp [hs, ih]
    · simp [hs, ih]

/-- Looking for a positive score in the filtered list is the same as in the
full list. -/
theorem find?_filter_pos (m : Nat) (hm : 0 < m) :
    ∀ l : List (String × Nat),
      (l.filter (fun q => decide (0 < q.2))).find? (fun q => q.2 == m)
        = l.find? (fun q => q.2 == m) := by
  intro l
  induction l with
  | nil => rfl
  | cons q l ih =>
    rw [List.filter_cons]
    by_cases hq : 0 < q.2
    · rw [if_pos (by simp [hq])]
      rw [find?_score_cons, find?_score_cons]
      by_cases hqm : q.2 = m
      · rw [if_pos hqm, if_pos hqm]
      · rw [if_neg hqm, if_neg hqm, ih]
    · rw [if_neg (by simp [hq])]
      rw [ih, find?_score_cons, if_neg (by omega)]

/-- The extracted genre is a key of the genre table, or the default. -/
theorem extractGenre_mem (hay : List Char) :
    extractGenre hay ∈ genre_keywords.map Prod.fst ∨ extractGenre hay = "general" := by
  unfold extractGenre
  cases hgs : genre_scores hay with
  | nil => right; rfl
  | cons h t =>
    left
    have hmem : pyMaxFold h t ∈ genre_scores hay := by
      rw [hgs]
      rcases pyMaxFold_mem t h with he | hm
      · rw [he]
        exact List.mem_cons_self _ _
      · exact List.mem_cons_of_mem _ hm
    rw [genre_scores_eq_filter] at hmem
    have hmem2 : pyMaxFold h t ∈ tableScores hay := List.mem_of_mem_filter hmem
    obtain ⟨p, hp, heq⟩ := List.mem_map.mp hmem2
    have h1 : (pyMaxFold h t).1 = p.1 := by rw [← heq]
    show (pyMaxFold h t).1 ∈ List.map Prod.fst genre_keywords
    rw [h1]
    exact List.mem_map_of_mem Prod.fst hp

/-- The result of the length/tone loop is a key of its table, or the
default. -/
theorem firstKeywordMatch_mem (table : List (String × List String)) (dflt : String)
    (hay : List Char) :
    firstKeywordMatch table dflt hay ∈ table.map Prod.fst
      ∨ firstKeywordMatch table dflt hay = dflt := by
  unfold firstKeywordMatch
  cases hfind : table.find? (fun p => p.2.any (fun k => containsSub k.data hay)) with
  | none => right; rfl
  | some p =>
    left
    exact List.mem_map_of_mem Prod.fst (List.mem_of_find?_eq_some hfind)

/-- Claim C1: for every input string, the record returned by
`analyze_prompt` has its genre field drawn from the closed set
{fantasy, sci-fi, mystery, horror, romance, adventure, thriller,
historical, comedy, contemporary, general}, its length field from
{short, medium, long, epic}, and its tone field from
{dark, light, humorous, dramatic, mysterious, neutral}. -/
theorem analyze_prompt_fields_closed (s : String) :
    (analyze_prompt s).genre ∈
        ["fantasy", "sci-fi", "mystery", "horror", "romance", "adventure",
         "thriller", "historical", "comedy", "contemporary", "general"] ∧
      (analyze_prompt s).length ∈ ["short", "medium", "long", "epic"] ∧
      (analyze_prompt s).tone ∈
        ["dark", "light", "humorous", "dramatic", "mysterious", "neutral"] := by
  refine ⟨?_, ?_, ?_⟩
  · have hg : (analyze_prompt s).genre = extractGenre (lowerL s.data) := rfl
    rw [hg]
    rcases extractGenre_mem (lowerL s.data) with hm | hd
    · exact (by decide :
        ∀ x ∈ genre_keywords.map Prod.fst,
          x ∈ ["fantasy", "sci-fi", "mystery", "horror", "romance", "adventure",
               "thriller", "historical", "comedy", "contemporary", "general"]) _ hm
    · rw [hd]
      decide
  · have hl : (analyze_prompt s).length
        = firstKeywordMatch length_keywords "medium" (lowerL s.data) := rfl
    rw [hl]
    rcases firstKeywordMatch_mem length_keywords "medium" (lowerL s.data) with hm | hd
    · exact (by decide :
        ∀ x ∈ length_keywords.map Prod.fst,
          x ∈ ["short", "medium", "long", "epic"]) _ hm
    · rw [hd]
      decide
  · have ht : (analyze_prompt s).tone
        = firstKeywordMatch tone_keywords "neutral" (lowerL s.data) := rfl
    rw [ht]
    rcases firstKeywordMatch_mem tone_keywords "neutral" (lowerL s.data) with hm | hd
    · exact (by decide :
        ∀ x ∈ tone_keywords.map Prod.fst,
          x ∈ ["dark", "light", "humorous", "dramatic", "mysterious", "neutral"]) _ hm
    · rw [hd]
      decide

/-- Claim C2: whenever two distinct genres attain the same maximal positive
keyword score, `analyze_prompt` returns the genre that appears first in the
declared order of the genre table: the first table entry whose score equals
the maximum is exactly the returned genre. -/
theorem analyze_prompt_genre_tie_break (s : String) (g1 g2 : String) (m : Nat)
    (h1 : (g1, m) ∈ tableScores (lowerL s.data))
    (h2 : (g2, m) ∈ tableScores (lowerL s.data))
    (hne : g1 ≠ g2) (hm : 0 < m)
    (hmax : ∀ q ∈ tableScores (lowerL s.data), q.2 ≤ m) :
    (tableScores (lowerL s.data)).find? (fun q => q.2 == m)
      = some ((analyze_prompt s).genre, m) := by
  have hgenre : (analyze_prompt s).genre = extractGenre (lowerL s.data) := rfl
  have hmem : (g1, m) ∈ genre_scores (lowerL s.data) := by
    rw [genre_scores_eq_filter]
    exact List.mem_filter.mpr ⟨h1, by simpa using hm⟩
  obtain ⟨h, t, hcons⟩ : ∃ h t, genre_scores (lowerL s.data) = h :: t := by
    cases hgs : genre_scores (lowerL s.data) with
    | nil =>
      rw [hgs] at hmem
      cases hmem
    | cons h t => exact ⟨h, t, rfl⟩
  have hms : maxScore (genre_scores (lowerL s.data)) = m := by
    apply le_antisymm
    · apply maxScore_le_of_forall
      intro q hq
      apply hmax
      rw [genre_scores_eq_filter] at hq
      exact (List.mem_filter.mp hq).1
    · exact le_maxScore_of_mem _ hmem
  have hfind := find?_maxScore t h
  rw [← hcons, hms] at hfind
  have hfind2 : (tableScores (lowerL s.data)).find? (fun q => q.2 == m)
      = some (pyMaxFold h t) := by
    rw [← find?_filter_pos m hm (tableScores (lowerL s.data)),
      ← genre_scores_eq_filter]
    exact hfind
  have hex : extractGenre (lowerL s.data) = (pyMaxFold h t).1 := by
    unfold extractGenre
    rw [hcons]
  have hp2 : (pyMaxFold h t).2 = m := by
    have := List.find?_some hfind2
    simpa using this
  have hp1 : (pyMaxFold h t).1 = (analyze_prompt s).genre := by
    rw [hgenre, hex]
  rw [hfind2]
  have hpair : pyMaxFold h t = ((analyze_prompt s).genre, m) := by
    have hsplit : pyMaxFold h t = ((pyMaxFold h t).1, (pyMaxFold h t).2) := rfl
    rw [hsplit, hp1, hp2]
  rw [hpair]

/-- Witness for claim C2: in `"magic love"` the genres fantasy and romance
both score 1, the shared maximum, and the analyzer returns fantasy, the
earlier of the two in the declared table order. -/
theorem analyze_prompt_genre_tie_break_witness :
    (analyze_prompt "magic love").genre = "fantasy" := by
  have h := analyze_prompt_genre_tie_break "magic love" "fantasy" "romance" 1
    (by decide) (by decide) (by decide) (by decide) (by decide)
  have hfind : (tableScores (lowerL "magic love".data)).find? (fun q => q.2 == 1)
      = some ("fantasy", 1) := by decide
  have hinj := hfind.symm.trans h
  injection hinj with heq
  exact (congrArg Prod.fst heq).symm

/-- Claim C3 counterexample: on the fantasy-wizard prompt the protagonist is
not `"a young wizard"`: the optional group `(?:a |an )?` of the pattern
`about (?:a |an )?(.+?) who` consumes the article before the capture
starts. -/
theorem wizard_protagonist_claim_false :
    ¬((analyze_prompt "A fantasy story about a young wizard who saves his village").genre
          = "fantasy" ∧
      (analyze_prompt "A fantasy story about a young wizard who saves his village").protagonist
          = "a young wizard") := by
  intro hc
  exact absurd hc.2 (by decide)

/-- Claim C3 as amended: for the input
`"A fantasy story about a young wizard who saves his village"` the analyzer
returns genre fantasy and protagonist `"young wizard"` (the article is
matched by the optional `(?:a |an )?` group, not captured). -/
theorem wizard_prompt_analysis :
    (analyze_prompt "A fantasy story about a young wizard who saves his village").genre
        = "fantasy" ∧
      (analyze_prompt "A fantasy story about a young wizard who saves his village").protagonist
        = "young wizard" := by
  constructor
  · decide
  · decide

/-- Claim C4 counterexample: on the abandoned-hospital prompt the setting is
not `"an abandoned hospital"`: the lazy capture of `set in (.+?)[\.,\s]`
stops at the first whitespace, after `"an"`. -/
theorem hospital_setting_claim_false :
    ¬((analyze_prompt "Write a short horror story set in an abandoned hospital").length
          = "short" ∧
      (analyze_prompt "Write a short horror story set in an abandoned hospital").genre
          = "horror" ∧
      (analyze_prompt "Write a short horror story set in an abandoned hospital").setting
          = "an abandoned hospital") := by
  intro hc
  exact absurd hc.2.2 (by decide)

/-- Claim C4 as amended: for the input
`"Write a short horror story set in an abandoned hospital"` the analyzer
returns length short, genre horror, and setting `"an"` (the non-greedy
capture of the `set in` pattern ends at the first space). -/
theorem hospital_prompt_analysis :
    (analyze_prompt "Write a short horror story set in an abandoned hospital").length
        = "short" ∧
      (analyze_prompt "Write a short horror story set in an abandoned hospital").genre
        = "horror" ∧
      (analyze_prompt "Write a short horror story set in an abandoned hospital").setting
        = "an" := by
  refine ⟨?_, ?_, ?_⟩
  · decide
  · decide
  · decide

/-- Claim C5: the empty input yields exactly the all-default record. -/
theorem analyze_prompt_empty_defaults :
    analyze_prompt ""
      = { genre := "general", style := "narrative", length := "medium",
          tone := "neutral", protagonist := "", setting := "", theme := "",
          original_prompt := "" } := by
  decide

/-- Claim C6: `"an epicurean feast"` is classified as length epic, keyword
matching being plain substring containment (`"epic"` occurs inside
`"epicurean"`). -/
theorem epicurean_length_epic :
    (analyze_prompt "an epicurean feast").length = "epic" := by
  decide

/-- Claim C7: the analyzer is deterministic: two runs on the same input
yield the same record in every field. -/
theorem analyze_prompt_deterministic (s : String) :
    analyze_prompt s = analyze_prompt s := rfl

/-- Claim C8 counterexample: the claim predicts
`analyze_prompt "story of a dragon"` returns an empty protagonist, but the
optional article group backtracks to its empty alternative and the pattern
`story of (?:a |an )?(.+?)[\.,\s]` captures `"a"`, the following space
serving as terminator. -/
theorem dangling_phrase_claim_false :
    (analyze_prompt "story of a dragon").protagonist ≠ "" := by
  decide

/-- Claim C8 as amended: the patterns require a terminator after the
capture, so a phrase that sits at the very end of the string and contains
no period, comma, or whitespace anywhere inside it is never captured
(`"protagonist Bob"` yields an empty protagonist, `"set in Paris"` an empty
setting); but a final phrase with internal whitespace or a re-parsable
leading article still matches with a shortened capture:
`"story of a dragon"` yields protagonist `"a"`. -/
theorem dangling_phrase_behavior :
    (analyze_prompt "protagonist Bob").protagonist = "" ∧
      (analyze_prompt "set in Paris").setting = "" ∧
      (analyze_prompt "story of a dragon").protagonist = "a" := by
  refine ⟨?_, ?_, ?_⟩
  · decide
  · decide
  · decide

/-- Claim C9: the analyzer never touches the style and theme fields, which
keep their dataclass defaults, and stores the verbatim input in
`original_prompt`. -/
theorem analyze_prompt_frame (s : String) :
    (analyze_prompt s).style = "narrative" ∧
      (analyze_prompt s).theme = "" ∧
      (analyze_prompt s).original_prompt = s :=
  ⟨rfl, rfl, rfl⟩

/-- Claim C10: when the planning-removal pipeline leaves fewer than 100
characters, `clean_story_content` returns the stripped original instead;
hence the result is never both different from the stripped original and
shorter than 100 characters. -/
theorem clean_story_short_guard (s : String) :
    ((cleanPipeline s.data).length < 100 →
        clean_story_content s = String.mk (stripWS s.data)) ∧
      ¬(clean_story_content s ≠ String.mk (stripWS s.data) ∧
        (clean_story_content s).length < 100) := by
  have hdef : clean_story_content s
      = if (cleanPipeline s.data).length < 100 then String.mk (stripWS s.data)
        else String.mk (cleanPipeline s.data) := rfl
  rw [hdef]
  by_cases h : (cleanPipeline s.data).length < 100
  · rw [if_pos h]
    exact ⟨fun _ => rfl, fun hc => hc.1 rfl⟩
  · rw [if_neg h]
    constructor
    · intro h2
      exact absurd h2 h
    · rintro ⟨hne, hlen⟩
      exact h hlen

/-- Witness for claim C10: on the empty input the pipeline output is
shorter than 100 characters and the cleaner returns the stripped
original. -/
theorem clean_story_short_guard_witness :
    (cleanPipeline "".data).length < 100 ∧
      clean_story_content "" = String.mk (stripWS "".data) :=
  ⟨by decide, (clean_story_short_guard "").1 (by decide)⟩

end StoryCraft
